import Mathlib

/-!
Shallow embedding of `src/meta_update.py` (OpenPecha/Opf-meta-updater).

The script fetches a Turtle (ttl) description of a work from the BDRC
catalog, extracts per-volume facts with `parse_volume_info`, and merges
them into an existing metadata mapping with `get_new_meta`.

Modelling choices, stated once:
* RDF terms (`rdflib.URIRef` / `rdflib.Literal`) are `RTerm`; a graph is
  the list of its triples (rdflib stores a set, so the parsed graphs we
  quantify over carry the relevant distinctness as hypotheses).
* The external Turtle parser and the HTTP client are collaborators the
  program calls; functions that use their results take the outcome as an
  argument (`Option RGraph` for the parse outcome, `HttpOutcome` for the
  fetch outcome).
* `uuid.uuid4().hex` is an external source of fresh keys, modelled as a
  stream `uids : Nat → String`; the i-th loop iteration consumes `uids i`.
  Distinctness of generated keys is a hypothesis where a claim needs it.
* Python exceptions that escape a modelled function make it return `none`;
  a caught exception is handled inside the definition, following the
  try/except structure of the source.
* `logging.warning` calls are collected in a returned list of messages;
  `print` output of `get_ttl` likewise.
-/

/-- An RDF term as the script sees it: a URI reference or a literal
(identified with its lexical / value string; both rdflib classes are
`str` subclasses, so `str(term)` is that string). -/
inductive RTerm where
  | uri (u : String)
  | lit (v : String)
deriving DecidableEq

/-- One subject–predicate–object triple; subjects and predicates in this
script are always URI references, kept as plain strings. -/
structure RTriple where
  subj : String
  pred : String
  obj : RTerm
deriving DecidableEq

/-- A parsed graph: the list of its triples. -/
abbrev RGraph := List RTriple

/-- `BDR = Namespace("http://purl.bdrc.io/resource/")`; `BDR[x]` appends. -/
def BDR (x : String) : String := "http://purl.bdrc.io/resource/" ++ x

/-- `BDO = Namespace("http://purl.bdrc.io/ontology/core/")`. -/
def BDO (x : String) : String := "http://purl.bdrc.io/ontology/core/" ++ x

/-- The `rdfs:comment` predicate URI used for volume titles. -/
def RDFS_comment : String := "http://www.w3.org/2000/01/rdf-schema#comment"

/-- `g.objects(s, p)`: the objects of all triples with this subject and
predicate, in graph order. -/
def RGraph.objectsOf (g : RGraph) (s p : String) : List RTerm :=
  (g.filter fun t => t.subj == s && t.pred == p).map (fun t => t.obj)

/-- `g.value(s, p)`: one object for the pair, or `None`; modelled as the
first match in graph order. -/
def RGraph.value (g : RGraph) (s p : String) : Option RTerm :=
  (g.objectsOf s p).head?

/-- `str(term)`: the URI string of a URIRef, the lexical form of a Literal. -/
def RTerm.toStr : RTerm → String
  | RTerm.uri u => u
  | RTerm.lit v => v

/-- Python truthiness of an rdflib term: both classes are `str`
subclasses, so a term is truthy exactly when its string is nonempty. -/
def RTerm.truthy : RTerm → Bool
  | RTerm.uri u => u ≠ ""
  | RTerm.lit v => v ≠ ""

/-- Model of `str.split("/")` (explicit separator: no empty-field
collapsing), on the character list, accumulating the current field. -/
def splitSlashAux : List Char → List Char → List String
  | [], cur => [String.mk cur.reverse]
  | c :: cs, cur =>
    if c = '/' then String.mk cur.reverse :: splitSlashAux cs []
    else splitSlashAux cs (c :: cur)

/-- `URI.split("/")` as a list of fields; never empty. -/
def splitSlash (s : String) : List String := splitSlashAux s.data []

/-- `get_img_grp_id(URI) = URI.split("/")[-1]`: the trailing path segment. -/
def get_img_grp_id (URI : String) : String := (splitSlash URI).getLastD ""

/-- CPython string comparison, `a <= b`: lexicographic on code points. -/
def charListLe : List Char → List Char → Bool
  | [], _ => true
  | _ :: _, [] => false
  | a :: as, b :: bs =>
    if a < b then true else if b < a then false else charListLe as bs

/-- Python `a <= b` on strings, as a proposition over the embedded
comparison. -/
def pyStrLe (a b : String) : Prop := charListLe a.data b.data = true

instance : DecidableRel pyStrLe :=
  fun a b => inferInstanceAs (Decidable (charListLe a.data b.data = true))

/-- `get_vol_img_grp_id_list(g, work_id)`: image-group ids of the objects
of `(BDR[work_id], BDO["instanceHasVolume"])`, sorted ascending by string
order (`list.sort()`; CPython compares strings lexicographically by code
point, embedded as `pyStrLe`). `insertionSort` is stable, and string
comparison is a total order, so the sorted list coincides with the
CPython sort. -/
def get_vol_img_grp_id_list (g : RGraph) (work_id : String) : List String :=
  List.insertionSort pyStrLe
    ((g.objectsOf (BDR work_id) (BDO "instanceHasVolume")).map
      (fun v => get_img_grp_id v.toStr))

/-- Python `str.strip()` whitespace for `int()`: ASCII space and the
usual control whitespace (the unicode extras do not occur here). -/
def isPySpace (c : Char) : Bool :=
  c = ' ' || c = '\t' || c = '\n' || c = '\r' || c = '\x0b' || c = '\x0c'

/-- ASCII decimal digit. -/
def isAsciiDigit (c : Char) : Bool := '0' ≤ c && c ≤ '9'

/-- Numeric value of a list of ASCII digits. -/
def natOfDigits (ds : List Char) : Nat :=
  ds.foldl (fun n c => n * 10 + (c.toNat - 48)) 0

/-- Model of Python `int(s)` on a string: optional surrounding
whitespace, an optional single sign, then one or more decimal digits;
anything else raises `ValueError` (`none`). (Digit-group underscores and
non-ASCII digits, which CPython also accepts, do not occur in this data
and are not modelled.) -/
def pyIntOfString (s : String) : Option Int :=
  let t := (s.data.dropWhile isPySpace).reverse.dropWhile isPySpace |>.reverse
  let core : List Char → Option Nat := fun ds =>
    if ds ≠ [] ∧ ds.all isAsciiDigit then some (natOfDigits ds) else none
  match t with
  | '-' :: ds => (core ds).map (fun n => -(n : Int))
  | '+' :: ds => (core ds).map (fun n => (n : Int))
  | ds => (core ds).map (fun n => (n : Int))

/-- `int(g.value(...))`: `int(None)` raises `TypeError` and a
non-numeric string raises `ValueError`, so the result is `none` exactly
when the relation is absent or its value is not coercible. -/
def coerceInt (t : Option RTerm) : Option Int :=
  t.bind (fun x => pyIntOfString x.toStr)

/-- The per-volume record assembled by `parse_volume_info`. -/
structure VolRecord where
  image_group_id : String
  title : String
  volume_number : Int
  total_pages : Int
deriving DecidableEq

/-- The warning logged for a missing or falsy volume title, matching
the f-string of the source (its apostrophe written as an escape). -/
def titleWarnMsg (vol_img_grp_id work_id : String) : String :=
  vol_img_grp_id ++ " in work id: " ++ work_id ++ " doesn\x27t have proper title"

/-- `logging.warning(f"{work_id}.ttl Contains bad syntax")`. -/
def badSyntaxMsg (work_id : String) : String :=
  work_id ++ ".ttl Contains bad syntax"

/-- The warning logged when the metadata document lacks a proper
`source_metadata` mapping, matching the f-string of the source. -/
def metaWarnMsg (work_id : String) : String :=
  work_id ++ " doesn\x27t have proper meta.yml"

/-- The body of one iteration of the extraction loop of
`parse_volume_info`, without the surrogate-key insertion: title lookup
(`rdfs:comment`; a falsy or absent value logs a warning and becomes `""`,
a truthy `URIRef` has no `.value` attribute so the iteration raises),
required `volumeNumber` coercion (raises when it fails), defaulted
`volumePagesTotal` coercion. Returns the record and the warnings it
logged, or `none` when the iteration raises. -/
def processVolume (g : RGraph) (work_id vol_img_grp_id : String) :
    Option (VolRecord × List String) :=
  let titleRes : Option (String × List String) :=
    match g.value (BDR vol_img_grp_id) RDFS_comment with
    | some t =>
      if t.truthy then
        match t with
        | RTerm.lit v => some (v, [])
        | RTerm.uri _ => none
      else some ("", [titleWarnMsg vol_img_grp_id work_id])
    | none => some ("", [titleWarnMsg vol_img_grp_id work_id])
  match titleRes with
  | none => none
  | some (title, tlog) =>
    match coerceInt (g.value (BDR vol_img_grp_id) (BDO "volumeNumber")) with
    | none => none
    | some volume_number =>
      let total_pages :=
        (coerceInt (g.value (BDR vol_img_grp_id) (BDO "volumePagesTotal"))).getD 0
      some ({ image_group_id := vol_img_grp_id, title := title,
              volume_number := volume_number, total_pages := total_pages }, tlog)

/-- Python dict assignment `d[k] = v` on an insertion-ordered
association list: overwrite in place when the key exists, else append. -/
def dictSet {α : Type} : List (String × α) → String → α → List (String × α)
  | [], k, v => [(k, v)]
  | (k₁, v₁) :: rest, k, v =>
    if k₁ = k then (k, v) :: rest else (k₁, v₁) :: dictSet rest k v

/-- Python dict lookup `d[k]` (first — and in a real dict only —
occurrence), `none` for `KeyError`. -/
def dictGet {α : Type} : List (String × α) → String → Option α
  | [], _ => none
  | (k₁, v₁) :: rest, k => if k₁ = k then some v₁ else dictGet rest k

/-- The `for vol_img_grp_id in vol_img_grp_ids:` loop of
`parse_volume_info`: `i` indexes the uuid stream, `acc` is `vol_info`,
`log` the warnings so far. An iteration that raises aborts the whole
call (`none`). -/
def parseLoop (g : RGraph) (work_id : String) (uids : Nat → String) :
    List String → Nat → List (String × VolRecord) → List String →
    Option (List (String × VolRecord) × List String)
  | [], _, acc, log => some (acc, log)
  | id :: ids, i, acc, log =>
    match processVolume g work_id id with
    | none => none
    | some (r, l) =>
      parseLoop g work_id uids ids (i + 1) (dictSet acc (uids i) r) (log ++ l)

/-- `parse_volume_info(meta_ttl, work_id)`. `parsed` is the outcome of
`Graph().parse(data=meta_ttl, format="ttl")` (`none` when the external
parser raises: the except branch logs the bad-syntax warning and returns
the empty dict). `uids` is the `uuid4` stream. The returned pair is the
`vol_info` dict (insertion-ordered) and the warnings logged; `none`
means an exception escaped the function. -/
def parse_volume_info (parsed : Option RGraph) (work_id : String)
    (uids : Nat → String) :
    Option (List (String × VolRecord) × List String) :=
  match parsed with
  | none => some ([], [badSyntaxMsg work_id])
  | some g => parseLoop g work_id uids (get_vol_img_grp_id_list g work_id) 0 [] []

/-- A YAML-loadable Python value, enough for the metadata documents the
merger manipulates: scalars, insertion-ordered dicts, lists. -/
inductive Yaml where
  | str (s : String)
  | int (n : Int)
  | map (entries : List (String × Yaml))
  | list (items : List Yaml)
  | null

/-- The `vol_info[uid]` record as the value it becomes inside the merged
metadata document (field insertion order of the source dict literal). -/
def volRecordToYaml (r : VolRecord) : Yaml :=
  Yaml.map [("image_group_id", Yaml.str r.image_group_id),
            ("title", Yaml.str r.title),
            ("volume_number", Yaml.int r.volume_number),
            ("total_pages", Yaml.int r.total_pages)]

/-- The whole `vol_info` dict as a metadata value. -/
def volInfoToYaml (vi : List (String × VolRecord)) : Yaml :=
  Yaml.map (vi.map (fun p => (p.1, volRecordToYaml p.2)))

/-- `get_new_meta(old_meta, meta_ttl, work_id)`: run the extractor, then
try `old_meta["source_metadata"]["volume"] = volume_info`. The bare
except catches the `KeyError` of a missing key and the `TypeError` of a
non-dict value (or non-dict `old_meta`), logs the warning and leaves the
document untouched; the assignment itself cannot raise once the inner
value is a dict. An exception escaping `parse_volume_info` is not inside
the try and propagates (`none`). Returns the (possibly updated) document
and the warnings logged during the call. -/
def get_new_meta (old_meta : Yaml) (parsed : Option RGraph) (work_id : String)
    (uids : Nat → String) : Option (Yaml × List String) :=
  match parse_volume_info parsed work_id uids with
  | none => none
  | some (volume_info, log) =>
    match old_meta with
    | Yaml.map entries =>
      match dictGet entries "source_metadata" with
      | some (Yaml.map sm) =>
        some (Yaml.map (dictSet entries "source_metadata"
                (Yaml.map (dictSet sm "volume" (volInfoToYaml volume_info)))), log)
      | _ => some (old_meta, log ++ [metaWarnMsg work_id])
    | _ => some (old_meta, log ++ [metaWarnMsg work_id])

/-- Outcome of `requests.get`, per the HTTP client library it delegates
to: a completed HTTP exchange yields a response object with a status
code and a body (`.text`) for ANY status code, 2xx or not; only
network-level errors (connection failure, timeout, too many redirects)
raise, which `failure` stands for. -/
inductive HttpOutcome where
  | response (status : Nat) (body : String)
  | failure
deriving DecidableEq

/-- `get_ttl(work_id)`: prints, performs the GET, returns `ttl.text`;
the bare except turns a raised transport error into a printed notice and
`""`. Returns the result string and the stdout lines. -/
def get_ttl (outcome : HttpOutcome) : String × List String :=
  match outcome with
  | HttpOutcome.response _ body => (body, ["Downloading ttl file"])
  | HttpOutcome.failure => ("", ["Downloading ttl file", " TTL not Found!!!"])

/-- Modelled from the spec: the external RDF library that parses the
graph text is a black-box collaborator (spec section 1), consuming
"text in a standard RDF serialization grammar (Turtle)" (spec section
6). Only the case the pipeline relies on is modelled: the Turtle
grammar derives a document as a sequence of statements, so a document
with no statements — in particular the empty string that `get_ttl`
returns on fetch failure — is valid and parses to the empty graph.
Nonempty documents are outside this model and conservatively mapped to
`none`; no result below depends on that branch. -/
def ttlParse (s : String) : Option RGraph :=
  if s.data.all isPySpace then some [] else none

/-- Reference shape of the extraction loop: process the ids in order,
collecting each record with the warnings of its iteration; `none` as
soon as one iteration raises. -/
def processList (g : RGraph) (work_id : String) :
    List String → Option (List (VolRecord × List String))
  | [] => some []
  | id :: ids =>
    match processVolume g work_id id, processList g work_id ids with
    | some rl, some rest => some (rl :: rest)
    | _, _ => none

/-- Pair the records with the uuid-stream keys from index `i` on. -/
def attachKeys (uids : Nat → String) : Nat → List (VolRecord × List String) →
    List (String × VolRecord)
  | _, [] => []
  | i, (r, _) :: rest => (uids i, r) :: attachKeys uids (i + 1) rest

/-- Concatenate the per-iteration warning lists. -/
def joinLogs : List (VolRecord × List String) → List String
  | [] => []
  | (_, l) :: rest => l ++ joinLogs rest

/-- A concrete injective uuid stream for witnesses: `i+1` copies of `c`. -/
def uidsW (c : Char) (i : Nat) : String := String.mk (List.replicate (i + 1) c)

/-- A concrete well-formed graph: work `W1` with two volumes, listed out
of order; `I1` has title, number and page count, `I2` has only a number
(missing title and page count exercise the recovered defaults). -/
def gW : RGraph :=
  [⟨BDR "W1", BDO "instanceHasVolume", RTerm.uri (BDR "I2")⟩,
   ⟨BDR "W1", BDO "instanceHasVolume", RTerm.uri (BDR "I1")⟩,
   ⟨BDR "I1", RDFS_comment, RTerm.lit "vol. 1"⟩,
   ⟨BDR "I1", BDO "volumeNumber", RTerm.lit "1"⟩,
   ⟨BDR "I1", BDO "volumePagesTotal", RTerm.lit "50"⟩,
   ⟨BDR "I2", BDO "volumeNumber", RTerm.lit "2"⟩]

/-- A concrete graph whose single volume has no `volumeNumber` relation:
the required coercion raises. -/
def gBad : RGraph :=
  [⟨BDR "W1", BDO "instanceHasVolume", RTerm.uri (BDR "I1")⟩]

/-- Whether looking up the volume title cannot raise: `.value` exists
unless the comment object is a truthy (nonempty) URI reference. -/
def titleSafe (g : RGraph) (id : String) : Bool :=
  match g.value (BDR id) RDFS_comment with
  | some (RTerm.uri u) => u == ""
  | _ => true

/-- Whether the existing document has a `source_metadata` key holding a
mapping, so that the merge assignment succeeds. -/
def hasProperSM (entries : List (String × Yaml)) : Bool :=
  match dictGet entries "source_metadata" with
  | some (Yaml.map _) => true
  | _ => false

/-- A concrete `source_metadata` mapping already holding stale volume
information. -/
def smW : List (String × Yaml) :=
  [("id", Yaml.str "bdr:W1"), ("volume", Yaml.str "stale")]

/-- A concrete existing-metadata document (as its entry list) with a
proper `source_metadata` mapping. -/
def oldMetaEntriesW : List (String × Yaml) :=
  [("id", Yaml.str "P000003"), ("source_metadata", Yaml.map smW)]

/-- A concrete existing-metadata document with no `source_metadata` key. -/
def oldMetaEntriesBad : List (String × Yaml) :=
  [("id", Yaml.str "P000003")]

example : get_img_grp_id "http://purl.bdrc.io/resource/I1001" = "I1001" := by decide
example : pyIntOfString " 42" = some 42 := by decide
example : pyIntOfString "-7" = some (-7) := by decide
example : pyIntOfString "4a" = none := by decide
example : pyIntOfString "" = none := by decide

theorem uidsW_inj (c : Char) : Function.Injective (uidsW c) := by
  intro a b h
  have h₂ : (uidsW c a).data.length = (uidsW c b).data.length := by rw [h]
  simpa [uidsW] using h₂

theorem uidsW_ne (i j : Nat) : uidsW 'a' i ≠ uidsW 'b' j := by
  intro h
  have h₂ : (uidsW 'a' i).data.head? = (uidsW 'b' j).data.head? := by rw [h]
  simp [uidsW, List.replicate_succ] at h₂

theorem dictSet_of_not_mem {α : Type} {d : List (String × α)} {k : String} (v : α)
    (hk : k ∉ d.map Prod.fst) : dictSet d k v = d ++ [(k, v)] := by
  induction d with
  | nil => rfl
  | cons p rest ih =>
    simp only [List.map_cons, List.mem_cons] at hk
    push_neg at hk
    simp only [dictSet, List.cons_append]
    rw [if_neg (fun h => hk.1 h.symm), ih hk.2]

theorem dictGet_dictSet_self {α : Type} (d : List (String × α)) (k : String) (v : α) :
    dictGet (dictSet d k v) k = some v := by
  induction d with
  | nil => simp [dictSet, dictGet]
  | cons p rest ih =>
    by_cases h : p.1 = k
    · simp [dictSet, dictGet, h]
    · simp [dictSet, dictGet, h, ih]

theorem dictGet_dictSet_ne {α : Type} (d : List (String × α)) {k k₁ : String} (v : α)
    (h : k₁ ≠ k) : dictGet (dictSet d k v) k₁ = dictGet d k₁ := by
  have h₀ : k ≠ k₁ := Ne.symm h
  induction d with
  | nil => simp [dictSet, dictGet, h₀]
  | cons p rest ih =>
    by_cases hp : p.1 = k
    · simp [dictSet, dictGet, hp, h₀]
    · simp only [dictSet, if_neg hp, dictGet]
      by_cases hq : p.1 = k₁ <;> simp [hq, ih]

theorem processVolume_inv {g : RGraph} {w id : String} {r : VolRecord}
    {l : List String} (h : processVolume g w id = some (r, l)) :
    r.image_group_id = id ∧
    r.total_pages = (coerceInt (g.value (BDR id) (BDO "volumePagesTotal"))).getD 0 ∧
    (l = [] ∨ l = [titleWarnMsg id w]) := by
  unfold processVolume at h
  rcases hv : g.value (BDR id) RDFS_comment with _ | t <;> rw [hv] at h
  · rcases hc : coerceInt (g.value (BDR id) (BDO "volumeNumber")) with _ | n <;>
      simp only [hc, Option.some.injEq, Prod.mk.injEq] at h
    · cases h
    · obtain ⟨h₁, h₂⟩ := h
      rw [← h₁, ← h₂]
      exact ⟨rfl, rfl, Or.inr rfl⟩
  · by_cases ht : t.truthy
    · cases t with
      | uri u => simp [ht] at h
      | lit v =>
        simp only [ht, if_true] at h
        rcases hc : coerceInt (g.value (BDR id) (BDO "volumeNumber")) with _ | n <;>
          simp only [hc, Option.some.injEq, Prod.mk.injEq] at h
        · cases h
        · obtain ⟨h₁, h₂⟩ := h
          rw [← h₁, ← h₂]
          exact ⟨rfl, rfl, Or.inl rfl⟩
    · simp only [ht, Bool.false_eq_true, if_false] at h
      rcases hc : coerceInt (g.value (BDR id) (BDO "volumeNumber")) with _ | n <;>
        simp only [hc, Option.some.injEq, Prod.mk.injEq] at h
      · cases h
      · obtain ⟨h₁, h₂⟩ := h
        rw [← h₁, ← h₂]
        exact ⟨rfl, rfl, Or.inr rfl⟩

theorem processVolume_none_of_vn {g : RGraph} {w id : String}
    (h : coerceInt (g.value (BDR id) (BDO "volumeNumber")) = none) :
    processVolume g w id = none := by
  unfold processVolume
  rcases hv : g.value (BDR id) RDFS_comment with _ | t
  · simp [h]
  · by_cases ht : t.truthy
    · cases t with
      | uri u => simp [ht]
      | lit v => simp [ht, h]
    · simp [ht, h]

theorem processList_length {g : RGraph} {w : String} :
    ∀ {ids : List String} {rs : List (VolRecord × List String)},
    processList g w ids = some rs → rs.length = ids.length := by
  intro ids
  induction ids with
  | nil => intro rs h; simp only [processList, Option.some.injEq] at h; simp [← h]
  | cons id ids ih =>
    intro rs h
    unfold processList at h
    rcases hp : processVolume g w id with _ | rl <;> rw [hp] at h
    · cases h
    · rcases hq : processList g w ids with _ | rest <;> rw [hq] at h
      · cases h
      · obtain rfl : rl :: rest = rs := by simpa using h
        simp [ih hq]

theorem processList_ids {g : RGraph} {w : String} :
    ∀ {ids : List String} {rs : List (VolRecord × List String)},
    processList g w ids = some rs →
    rs.map (fun p => p.1.image_group_id) = ids := by
  intro ids
  induction ids with
  | nil => intro rs h; simp only [processList, Option.some.injEq] at h; simp [← h]
  | cons id ids ih =>
    intro rs h
    unfold processList at h
    rcases hp : processVolume g w id with _ | rl <;> rw [hp] at h
    · cases h
    · rcases hq : processList g w ids with _ | rest <;> rw [hq] at h
      · cases h
      · obtain rfl : rl :: rest = rs := by simpa using h
        rcases rl with ⟨r, l⟩
        simp [(processVolume_inv hp).1, ih hq]

theorem processList_none_of_mem {g : RGraph} {w id : String} {ids : List String}
    (hmem : id ∈ ids) (hnone : processVolume g w id = none) :
    processList g w ids = none := by
  induction ids with
  | nil => cases hmem
  | cons id₁ ids ih =>
    rcases List.mem_cons.mp hmem with rfl | hmem₁
    · simp [processList, hnone]
    · unfold processList
      rcases hp : processVolume g w id₁ with _ | rl
      · rfl
      · rw [ih hmem₁]
  
theorem processList_mem {g : RGraph} {w : String} :
    ∀ {ids : List String} {rs : List (VolRecord × List String)},
    processList g w ids = some rs →
    ∀ rl ∈ rs, processVolume g w rl.1.image_group_id = some rl := by
  intro ids
  induction ids with
  | nil =>
    intro rs h rl hrl
    simp only [processList, Option.some.injEq] at h
    rw [← h] at hrl
    cases hrl
  | cons id ids ih =>
    intro rs h rl hrl
    unfold processList at h
    rcases hp : processVolume g w id with _ | rl₁ <;> rw [hp] at h
    · cases h
    · rcases hq : processList g w ids with _ | rest <;> rw [hq] at h
      · cases h
      · obtain rfl : rl₁ :: rest = rs := by simpa using h
        rcases List.mem_cons.mp hrl with rfl | hmem
        · rcases rl with ⟨r, l⟩
          rw [(processVolume_inv hp).1]
          exact hp
        · exact ih hq rl hmem

theorem joinLogs_mem {w : String} {g : RGraph} :
    ∀ {ids : List String} {rs : List (VolRecord × List String)},
    processList g w ids = some rs →
    ∀ msg ∈ joinLogs rs, ∃ v, msg = titleWarnMsg v w := by
  intro ids
  induction ids with
  | nil =>
    intro rs h msg hmsg
    simp only [processList, Option.some.injEq] at h
    rw [← h] at hmsg
    cases hmsg
  | cons id ids ih =>
    intro rs h msg hmsg
    unfold processList at h
    rcases hp : processVolume g w id with _ | rl <;> rw [hp] at h
    · cases h
    · rcases hq : processList g w ids with _ | rest <;> rw [hq] at h
      · cases h
      · obtain rfl : rl :: rest = rs := by simpa using h
        rcases rl with ⟨r, l⟩
        simp only [joinLogs, List.mem_append] at hmsg
        rcases hmsg with hl | hrest
        · rcases (processVolume_inv hp).2.2 with rfl | rfl
          · cases hl
          · refine ⟨id, ?_⟩
            simpa using hl
        · exact ih hq msg hrest

theorem attachKeys_length (uids : Nat → String) :
    ∀ (i : Nat) (rs : List (VolRecord × List String)),
    (attachKeys uids i rs).length = rs.length := by
  intro i rs
  induction rs generalizing i with
  | nil => rfl
  | cons rl rest ih => rcases rl with ⟨r, l⟩; simp [attachKeys, ih]

theorem attachKeys_snd (uids : Nat → String) :
    ∀ (i : Nat) (rs : List (VolRecord × List String)),
    (attachKeys uids i rs).map Prod.snd = rs.map Prod.fst := by
  intro i rs
  induction rs generalizing i with
  | nil => rfl
  | cons rl rest ih => rcases rl with ⟨r, l⟩; simp [attachKeys, ih]

theorem attachKeys_fst (uids : Nat → String) :
    ∀ (i : Nat) (rs : List (VolRecord × List String)),
    (attachKeys uids i rs).map Prod.fst =
      (List.range rs.length).map (fun j => uids (i + j)) := by
  intro i rs
  induction rs generalizing i with
  | nil => rfl
  | cons rl rest ih =>
    rcases rl with ⟨r, l⟩
    simp only [attachKeys, List.map_cons, List.length_cons, List.range_succ_eq_map,
      List.map_map, ih (i + 1)]
    congr 1
    apply List.map_congr_left
    intro j hj
    simp only [Function.comp_apply]
    congr 1
    omega

theorem parseLoop_eq (g : RGraph) (w : String) (uids : Nat → String)
    (hinj : Function.Injective uids) :
    ∀ (ids : List String) (i : Nat) (acc : List (String × VolRecord))
      (log : List String),
    (∀ j, i ≤ j → uids j ∉ acc.map Prod.fst) →
    parseLoop g w uids ids i acc log =
      (processList g w ids).map
        (fun rs => (acc ++ attachKeys uids i rs, log ++ joinLogs rs)) := by
  intro ids
  induction ids with
  | nil =>
    intro i acc log _
    simp [parseLoop, processList, attachKeys, joinLogs]
  | cons id ids ih =>
    intro i acc log hfresh
    rcases hp : processVolume g w id with _ | rl
    · simp [parseLoop, hp, processList]
    · rcases rl with ⟨r, l⟩
      have hset : dictSet acc (uids i) r = acc ++ [(uids i, r)] :=
        dictSet_of_not_mem r (hfresh i (Nat.le_refl i))
      have hfresh₁ : ∀ j, i + 1 ≤ j →
          uids j ∉ (acc ++ [(uids i, r)]).map Prod.fst := by
        intro j hj hmem
        simp only [List.map_append, List.mem_append, List.map_cons, List.map_nil,
          List.mem_cons, List.not_mem_nil, or_false] at hmem
        rcases hmem with hmem | hmem
        · exact hfresh j (Nat.le_of_succ_le hj) hmem
        · have : j = i := hinj hmem
          omega
      have hloop : parseLoop g w uids (id :: ids) i acc log =
          parseLoop g w uids ids (i + 1) (dictSet acc (uids i) r) (log ++ l) := by
        simp [parseLoop, hp]
      rw [hloop, hset, ih (i + 1) (acc ++ [(uids i, r)]) (log ++ l) hfresh₁]
      rcases hq : processList g w ids with _ | rest
      · simp [processList, hp, hq]
      · simp [processList, hp, hq, attachKeys, joinLogs, List.append_assoc]

/-- Success-shape characterization of `parse_volume_info` on a parsed
graph, for an injective uuid stream: the result is the reference
per-volume processing of the sorted image-group ids, keyed by
consecutive stream entries, with the per-volume warnings concatenated. -/
theorem parse_volume_info_some (g : RGraph) (w : String) (uids : Nat → String)
    (hinj : Function.Injective uids) :
    parse_volume_info (some g) w uids =
      (processList g w (get_vol_img_grp_id_list g w)).map
        (fun rs => (attachKeys uids 0 rs, joinLogs rs)) := by
  have h := parseLoop_eq g w uids hinj (get_vol_img_grp_id_list g w) 0 [] []
    (by intro j _ hmem; cases hmem)
  simpa [parse_volume_info] using h

theorem charListLe_total : ∀ as bs : List Char,
    charListLe as bs = true ∨ charListLe bs as = true
  | [], [] => Or.inl rfl
  | [], _ :: _ => Or.inl rfl
  | _ :: _, [] => Or.inr rfl
  | a :: as, b :: bs => by
    rcases lt_trichotomy a b with h | h | h
    · left
      simp [charListLe, h]
    · subst h
      rcases charListLe_total as bs with ht | ht
      · left
        simp [charListLe, lt_irrefl, ht]
      · right
        simp [charListLe, lt_irrefl, ht]
    · right
      simp [charListLe, h]

theorem charListLe_trans : ∀ as bs cs : List Char,
    charListLe as bs = true → charListLe bs cs = true → charListLe as cs = true
  | [], _, _, _, _ => rfl
  | _ :: _, [], _, h₁, _ => by cases h₁
  | _ :: _, _ :: _, [], _, h₂ => by cases h₂
  | a :: as, b :: bs, c :: cs, h₁, h₂ => by
    rcases lt_trichotomy a b with hab | hab | hab
    · rcases lt_trichotomy b c with hbc | hbc | hbc
      · simp [charListLe, lt_trans hab hbc]
      · subst hbc
        simp [charListLe, hab]
      · rw [charListLe, if_neg (lt_asymm hbc), if_pos hbc] at h₂
        cases h₂
    · subst hab
      rw [charListLe, if_neg (lt_irrefl a), if_neg (lt_irrefl a)] at h₁
      rcases lt_trichotomy a c with hbc | hbc | hbc
      · simp [charListLe, hbc]
      · subst hbc
        rw [charListLe, if_neg (lt_irrefl a), if_neg (lt_irrefl a)] at h₂ ⊢
        exact charListLe_trans as bs cs h₁ h₂
      · rw [charListLe, if_neg (lt_asymm hbc), if_pos hbc] at h₂
        cases h₂
    · rw [charListLe, if_neg (lt_asymm hab), if_pos hab] at h₁
      cases h₁

theorem pyStrLe_total : ∀ a b : String, pyStrLe a b ∨ pyStrLe b a :=
  fun a b => charListLe_total a.data b.data

theorem pyStrLe_trans {a b c : String} :
    pyStrLe a b → pyStrLe b c → pyStrLe a c :=
  charListLe_trans a.data b.data c.data

theorem get_vol_img_grp_id_list_sorted (g : RGraph) (w : String) :
    List.Sorted pyStrLe (get_vol_img_grp_id_list g w) := by
  haveI : IsTotal String pyStrLe := ⟨pyStrLe_total⟩
  haveI : IsTrans String pyStrLe := ⟨fun _ _ _ => pyStrLe_trans⟩
  exact List.sorted_insertionSort pyStrLe _

theorem parseLoop_none {g : RGraph} {w id : String} (uids : Nat → String)
    (hnone : processVolume g w id = none) :
    ∀ (ids : List String), id ∈ ids →
    ∀ (i : Nat) (acc : List (String × VolRecord)) (log : List String),
    parseLoop g w uids ids i acc log = none := by
  intro ids
  induction ids with
  | nil => intro h; cases h
  | cons id₁ ids ih =>
    intro hmem i acc log
    rcases List.mem_cons.mp hmem with rfl | hmem₁
    · simp [parseLoop, hnone]
    · rcases hp : processVolume g w id₁ with _ | rl
      · simp [parseLoop, hp]
      · rcases rl with ⟨r, l⟩
        simp only [parseLoop, hp]
        exact ih hmem₁ (i + 1) _ _

theorem processVolume_none_inv {g : RGraph} {w id : String}
    (h : processVolume g w id = none) :
    (∃ u, g.value (BDR id) RDFS_comment = some (RTerm.uri u) ∧ u ≠ "") ∨
    coerceInt (g.value (BDR id) (BDO "volumeNumber")) = none := by
  unfold processVolume at h
  rcases hv : g.value (BDR id) RDFS_comment with _ | t <;> rw [hv] at h
  · rcases hc : coerceInt (g.value (BDR id) (BDO "volumeNumber")) with _ | n <;>
      simp only [hc] at h
    · exact Or.inr rfl
    · cases h
  · by_cases ht : t.truthy
    · cases t with
      | uri u =>
        refine Or.inl ⟨u, rfl, ?_⟩
        simpa [RTerm.truthy] using ht
      | lit v =>
        simp only [ht, if_true] at h
        rcases hc : coerceInt (g.value (BDR id) (BDO "volumeNumber")) with _ | n <;>
          simp only [hc] at h
        · exact Or.inr rfl
        · cases h
    · simp only [ht, Bool.false_eq_true, if_false] at h
      rcases hc : coerceInt (g.value (BDR id) (BDO "volumeNumber")) with _ | n <;>
        simp only [hc] at h
      · exact Or.inr rfl
      · cases h

theorem processVolume_isSome {g : RGraph} {w id : String}
    (hvn : coerceInt (g.value (BDR id) (BDO "volumeNumber")) ≠ none)
    (hti : titleSafe g id = true) :
    ∃ rl, processVolume g w id = some rl := by
  rcases hp : processVolume g w id with _ | rl
  · rcases processVolume_none_inv hp with ⟨u, hu, hne⟩ | hc
    · unfold titleSafe at hti
      rw [hu] at hti
      exact absurd (by simpa using hti) hne
    · exact absurd hc hvn
  · exact ⟨rl, rfl⟩

theorem processList_isSome {g : RGraph} {w : String} :
    ∀ {ids : List String}, (∀ id ∈ ids, processVolume g w id ≠ none) →
    ∃ rs, processList g w ids = some rs := by
  intro ids
  induction ids with
  | nil => intro _; exact ⟨[], rfl⟩
  | cons id ids ih =>
    intro h
    rcases hp : processVolume g w id with _ | rl
    · exact absurd hp (h id (List.mem_cons_self id ids))
    · obtain ⟨rs, hrs⟩ := ih (fun x hx => h x (List.mem_cons_of_mem _ hx))
      exact ⟨rl :: rs, by simp [processList, hp, hrs]⟩

theorem attachKeys_mem (uids : Nat → String) :
    ∀ (i : Nat) (rs : List (VolRecord × List String)) (p : String × VolRecord),
    p ∈ attachKeys uids i rs → p.2 ∈ rs.map Prod.fst := by
  intro i rs
  induction rs generalizing i with
  | nil => intro p h; cases h
  | cons rl rest ih =>
    rcases rl with ⟨r, l⟩
    intro p h
    rcases List.mem_cons.mp h with rfl | h₁
    · simp
    · simp only [List.map_cons, List.mem_cons]
      exact Or.inr (ih (i + 1) p h₁)

theorem attachKeys_img (uids : Nat → String) :
    ∀ (i : Nat) (rs : List (VolRecord × List String)),
    (attachKeys uids i rs).map (fun p => p.2.image_group_id) =
      rs.map (fun p => p.1.image_group_id) := by
  intro i rs
  induction rs generalizing i with
  | nil => rfl
  | cons rl rest ih => rcases rl with ⟨r, l⟩; simp [attachKeys, ih]

/-- Claim C7: for syntactically invalid graph text — the external Turtle
parser raises, modelled by a `none` parse outcome — `parse_volume_info`
returns the empty mapping, no exception propagates (the except branch
handles it), and the single logged warning contains the work id. -/
theorem claim_C7 (work_id : String) (uids : Nat → String) :
    parse_volume_info none work_id uids = some ([], [badSyntaxMsg work_id]) ∧
    ∃ pre post, badSyntaxMsg work_id = pre ++ work_id ++ post :=
  ⟨rfl, "", ".ttl Contains bad syntax", rfl⟩

/-- Claim C2: when some volume in the enumerated list has a
volume-number relation that is absent or not integer-coercible, the
failure is not caught locally: `parse_volume_info` does not return (the
exception propagates, and no mapping, complete or not, is produced). -/
theorem claim_C2 (g : RGraph) (work_id : String) (uids : Nat → String)
    (id : String) (hmem : id ∈ get_vol_img_grp_id_list g work_id)
    (hvn : coerceInt (g.value (BDR id) (BDO "volumeNumber")) = none) :
    parse_volume_info (some g) work_id uids = none := by
  unfold parse_volume_info
  exact parseLoop_none uids (processVolume_none_of_vn hvn) _ hmem 0 [] []

/-- Witness for C2 at the concrete graph `gBad` (volume `I1` has no
volume-number relation). -/
theorem claim_C2_witness :
    "I1" ∈ get_vol_img_grp_id_list gBad "W1" ∧
    coerceInt (gBad.value (BDR "I1") (BDO "volumeNumber")) = none ∧
    parse_volume_info (some gBad) "W1" (uidsW 'a') = none :=
  ⟨by decide, by decide, claim_C2 gBad "W1" (uidsW 'a') "I1" (by decide) (by decide)⟩

/-- Claim C3 counterexample: a completed non-2xx HTTP exchange (status
404, body "Not Found") does not make `get_ttl` return the empty string:
`requests.get` raises only on network-level failures, so the error body
is returned as-is. -/
theorem claim_C3_counterexample :
    (get_ttl (HttpOutcome.response 404 "Not Found")).1 = "Not Found" ∧
    (get_ttl (HttpOutcome.response 404 "Not Found")).1 ≠ "" :=
  ⟨rfl, by decide⟩

/-- Claim C3 (amended): `get_ttl` never raises; on a raised
transport-level failure of the HTTP client it prints the notice and
returns the empty string; on ANY completed response — non-2xx included,
status is never inspected — it returns the raw body text. -/
theorem claim_C3 (status : Nat) (body : String) :
    get_ttl (HttpOutcome.response status body) = (body, ["Downloading ttl file"]) ∧
    get_ttl HttpOutcome.failure =
      ("", ["Downloading ttl file", " TTL not Found!!!"]) :=
  ⟨rfl, rfl⟩

/-- Claim C1 counterexample: `gBad` carries exactly one distinct
has-volume relation whose object has a valid trailing segment, yet the
extractor returns no mapping at all — the required volume-number
coercion raises — rather than a mapping of one record. -/
theorem claim_C1_counterexample :
    (gBad.objectsOf (BDR "W1") (BDO "instanceHasVolume")).length = 1 ∧
    parse_volume_info (some gBad) "W1" (uidsW 'a') = none :=
  ⟨by decide, by decide⟩

/-- Claim C1 (amended): for a graph with N has-volume relations for the
work, IF additionally every enumerated volume has an integer-coercible
volume-number relation and no truthy URI title value (otherwise the
extractor raises instead of returning), and the freshly generated
surrogate keys are pairwise distinct, then the extractor returns a
mapping of exactly N records stored under pairwise distinct keys. -/
theorem claim_C1 (g : RGraph) (work_id : String) (uids : Nat → String)
    (hinj : Function.Injective uids) (N : Nat)
    (hN : (g.objectsOf (BDR work_id) (BDO "instanceHasVolume")).length = N)
    (hok : ∀ id ∈ get_vol_img_grp_id_list g work_id,
      coerceInt (g.value (BDR id) (BDO "volumeNumber")) ≠ none ∧
      titleSafe g id = true) :
    ∃ m log, parse_volume_info (some g) work_id uids = some (m, log) ∧
      m.length = N ∧ (m.map Prod.fst).Nodup := by
  have hall : ∀ id ∈ get_vol_img_grp_id_list g work_id,
      processVolume g work_id id ≠ none := by
    intro id hid hn
    obtain ⟨rl, hrl⟩ :=
      @processVolume_isSome g work_id id (hok id hid).1 (hok id hid).2
    rw [hn] at hrl
    cases hrl
  obtain ⟨rs, hrs⟩ :=
    @processList_isSome g work_id (get_vol_img_grp_id_list g work_id) hall
  have heq := parse_volume_info_some g work_id uids hinj
  rw [hrs] at heq
  simp only [Option.map_some'] at heq
  refine ⟨attachKeys uids 0 rs, joinLogs rs, heq, ?_, ?_⟩
  · rw [attachKeys_length, processList_length hrs]
    simp only [get_vol_img_grp_id_list]
    rw [List.length_insertionSort, List.length_map, hN]
  · rw [attachKeys_fst]
    refine List.Nodup.map ?_ (List.nodup_range _)
    intro a b hab
    have := hinj hab
    omega

/-- Witness for (amended) C1 at the concrete graph `gW`: two volumes,
two records, distinct keys. -/
theorem claim_C1_witness :
    ∃ m log, parse_volume_info (some gW) "W1" (uidsW 'a') = some (m, log) ∧
      m.length = 2 ∧ (m.map Prod.fst).Nodup :=
  claim_C1 gW "W1" (uidsW 'a') (uidsW_inj 'a') 2 (by decide) (by decide)

/-- Claim C5: the image-group identifiers drive extraction in ascending
string order, and the records of the returned mapping, read in insertion
order, reproduce that sorted order in their `image_group_id` fields
(surrogate keys assumed distinct, as generated). -/
theorem claim_C5 (g : RGraph) (work_id : String) (uids : Nat → String)
    (hinj : Function.Injective uids) (m : List (String × VolRecord))
    (log : List String)
    (h : parse_volume_info (some g) work_id uids = some (m, log)) :
    m.map (fun p => p.2.image_group_id) = get_vol_img_grp_id_list g work_id ∧
    List.Sorted pyStrLe (get_vol_img_grp_id_list g work_id) := by
  have heq := parse_volume_info_some g work_id uids hinj
  rw [h] at heq
  rcases hq : processList g work_id (get_vol_img_grp_id_list g work_id)
      with _ | rs <;> rw [hq] at heq
  · cases heq
  · simp only [Option.map_some', Option.some.injEq, Prod.mk.injEq] at heq
    obtain ⟨hm, hlog⟩ := heq
    subst hm
    rw [attachKeys_img]
    exact ⟨processList_ids hq, get_vol_img_grp_id_list_sorted g work_id⟩

/-- Witness for C5 at the concrete graph `gW` (volumes listed out of
order in the graph, returned sorted). -/
theorem claim_C5_witness :
    [("a", (⟨"I1", "vol. 1", 1, 50⟩ : VolRecord)),
     ("aa", (⟨"I2", "", 2, 0⟩ : VolRecord))].map
        (fun p => p.2.image_group_id) = get_vol_img_grp_id_list gW "W1" ∧
    List.Sorted pyStrLe (get_vol_img_grp_id_list gW "W1") :=
  claim_C5 gW "W1" (uidsW 'a') (uidsW_inj 'a')
    [("a", ⟨"I1", "vol. 1", 1, 50⟩), ("aa", ⟨"I2", "", 2, 0⟩)]
    [titleWarnMsg "I2" "W1"] (by decide)

/-- Claim C6: when the total-pages relation of a volume is absent or not
integer-coercible, the failure is caught locally: its records carry
`total_pages = 0`, the call still returns, and no warning is logged for
that omission (every logged message is a missing-title warning). -/
theorem claim_C6 (g : RGraph) (work_id : String) (uids : Nat → String)
    (hinj : Function.Injective uids) (m : List (String × VolRecord))
    (log : List String) (id : String)
    (h : parse_volume_info (some g) work_id uids = some (m, log))
    (hpages : coerceInt (g.value (BDR id) (BDO "volumePagesTotal")) = none) :
    (∀ p ∈ m, p.2.image_group_id = id → p.2.total_pages = 0) ∧
    (∀ msg ∈ log, ∃ v, msg = titleWarnMsg v work_id) := by
  have heq := parse_volume_info_some g work_id uids hinj
  rw [h] at heq
  rcases hq : processList g work_id (get_vol_img_grp_id_list g work_id)
      with _ | rs <;> rw [hq] at heq
  · cases heq
  · simp only [Option.map_some', Option.some.injEq, Prod.mk.injEq] at heq
    obtain ⟨hm, hlog⟩ := heq
    subst hm
    subst hlog
    constructor
    · intro p hp hid
      obtain ⟨rl, hrl, hrl₂⟩ :=
        List.mem_map.mp (attachKeys_mem uids 0 rs p hp)
      have hinv := (processVolume_inv (processList_mem hq rl hrl)).2.1
      rw [hrl₂] at hinv
      rw [hid] at hinv
      rw [hinv, hpages]
      rfl
    · intro msg hmsg
      exact joinLogs_mem hq msg hmsg

/-- Witness for C6 at the concrete graph `gW`: volume `I2` has no
total-pages relation; its record carries 0 and the only logged message
is the missing-title warning. -/
theorem claim_C6_witness :
    (∀ p ∈ [("a", (⟨"I1", "vol. 1", 1, 50⟩ : VolRecord)),
            ("aa", (⟨"I2", "", 2, 0⟩ : VolRecord))],
      p.2.image_group_id = "I2" → p.2.total_pages = 0) ∧
    (∀ msg ∈ [titleWarnMsg "I2" "W1"], ∃ v, msg = titleWarnMsg v "W1") :=
  claim_C6 gW "W1" (uidsW 'a') (uidsW_inj 'a')
    [("a", ⟨"I1", "vol. 1", 1, 50⟩), ("aa", ⟨"I2", "", 2, 0⟩)]
    [titleWarnMsg "I2" "W1"] "I2" (by decide) (by decide)

/-- Claim C9: running the extraction twice on the same parse outcome and
work id, with two (injective, mutually disjoint) uuid streams, yields
mappings with identical record contents and identical logs, but pairwise
different surrogate keys: content is idempotent across runs, record
identity is not. -/
theorem claim_C9 (parsed : Option RGraph) (work_id : String)
    (u₁ u₂ : Nat → String) (h₁inj : Function.Injective u₁)
    (h₂inj : Function.Injective u₂) (hdisj : ∀ i j, u₁ i ≠ u₂ j)
    (m₁ : List (String × VolRecord)) (log₁ : List String)
    (h₁ : parse_volume_info parsed work_id u₁ = some (m₁, log₁)) :
    ∃ m₂ log₂, parse_volume_info parsed work_id u₂ = some (m₂, log₂) ∧
      m₁.map Prod.snd = m₂.map Prod.snd ∧ log₁ = log₂ ∧
      ∀ k₁ ∈ m₁.map Prod.fst, ∀ k₂ ∈ m₂.map Prod.fst, k₁ ≠ k₂ := by
  cases parsed with
  | none =>
    simp only [parse_volume_info, Option.some.injEq, Prod.mk.injEq] at h₁
    obtain ⟨hm, hlog⟩ := h₁
    refine ⟨[], [badSyntaxMsg work_id], rfl, ?_, ?_, ?_⟩
    · rw [← hm]
    · rw [← hlog]
    · intro k₁ hk₁
      rw [← hm] at hk₁
      cases hk₁
  | some g =>
    have e₁ := parse_volume_info_some g work_id u₁ h₁inj
    have e₂ := parse_volume_info_some g work_id u₂ h₂inj
    rw [h₁] at e₁
    rcases hq : processList g work_id (get_vol_img_grp_id_list g work_id)
        with _ | rs <;> rw [hq] at e₁ e₂
    · cases e₁
    · simp only [Option.map_some', Option.some.injEq, Prod.mk.injEq] at e₁ e₂
      obtain ⟨hm, hlog⟩ := e₁
      subst hm
      subst hlog
      refine ⟨attachKeys u₂ 0 rs, joinLogs rs, e₂, ?_, rfl, ?_⟩
      · rw [attachKeys_snd, attachKeys_snd]
      · intro k₁ hk₁ k₂ hk₂
        rw [attachKeys_fst] at hk₁ hk₂
        obtain ⟨j₁, hj₁, hkk₁⟩ := List.mem_map.mp hk₁
        obtain ⟨j₂, hj₂, hkk₂⟩ := List.mem_map.mp hk₂
        rw [← hkk₁, ← hkk₂]
        exact hdisj (0 + j₁) (0 + j₂)

/-- Witness for C9 at the concrete graph `gW` with streams of `a`-runs
and `b`-runs. -/
theorem claim_C9_witness :
    ∃ m₂ log₂, parse_volume_info (some gW) "W1" (uidsW 'b') = some (m₂, log₂) ∧
      [("a", (⟨"I1", "vol. 1", 1, 50⟩ : VolRecord)),
       ("aa", (⟨"I2", "", 2, 0⟩ : VolRecord))].map Prod.snd = m₂.map Prod.snd ∧
      [titleWarnMsg "I2" "W1"] = log₂ ∧
      ∀ k₁ ∈ [("a", (⟨"I1", "vol. 1", 1, 50⟩ : VolRecord)),
              ("aa", (⟨"I2", "", 2, 0⟩ : VolRecord))].map Prod.fst,
      ∀ k₂ ∈ m₂.map Prod.fst, k₁ ≠ k₂ :=
  claim_C9 (some gW) "W1" (uidsW 'a') (uidsW 'b') (uidsW_inj 'a')
    (uidsW_inj 'b') uidsW_ne
    [("a", ⟨"I1", "vol. 1", 1, 50⟩), ("aa", ⟨"I2", "", 2, 0⟩)]
    [titleWarnMsg "I2" "W1"] (by decide)

/-- Claim C4: when the extraction returns and the existing metadata
mapping has no `source_metadata` key holding a mapping, the merge
assignment raises, the bare except swallows it, `get_new_meta` returns
the document unchanged (equal to its input) and logs a warning whose
text contains the work id. -/
theorem claim_C4 (parsed : Option RGraph) (work_id : String)
    (uids : Nat → String) (entries : List (String × Yaml))
    (vi : List (String × VolRecord)) (plog : List String)
    (hparse : parse_volume_info parsed work_id uids = some (vi, plog))
    (hbad : hasProperSM entries = false) :
    get_new_meta (Yaml.map entries) parsed work_id uids =
      some (Yaml.map entries, plog ++ [metaWarnMsg work_id]) ∧
    ∃ pre post, metaWarnMsg work_id = pre ++ work_id ++ post := by
  refine ⟨?_, "", " doesn\x27t have proper meta.yml", rfl⟩
  unfold get_new_meta
  rw [hparse]
  unfold hasProperSM at hbad
  show (match dictGet entries "source_metadata" with
    | some (Yaml.map sm) =>
      some (Yaml.map (dictSet entries "source_metadata"
        (Yaml.map (dictSet sm "volume" (volInfoToYaml vi)))), plog)
    | _ => some (Yaml.map entries, plog ++ [metaWarnMsg work_id])) =
    some (Yaml.map entries, plog ++ [metaWarnMsg work_id])
  rcases hsm : dictGet entries "source_metadata" with _ | v
  · rfl
  · rw [hsm] at hbad
    cases v with
    | str s => rfl
    | int n => rfl
    | map sm => cases hbad
    | list items => rfl
    | null => rfl

/-- Witness for C4: merging into a document without `source_metadata`
leaves it unchanged and appends the warning. -/
theorem claim_C4_witness :
    get_new_meta (Yaml.map oldMetaEntriesBad) (some gW) "W1" (uidsW 'a') =
      some (Yaml.map oldMetaEntriesBad,
        [titleWarnMsg "I2" "W1"] ++ [metaWarnMsg "W1"]) ∧
    ∃ pre post, metaWarnMsg "W1" = pre ++ "W1" ++ post :=
  claim_C4 (some gW) "W1" (uidsW 'a') oldMetaEntriesBad
    [("a", ⟨"I1", "vol. 1", 1, 50⟩), ("aa", ⟨"I2", "", 2, 0⟩)]
    [titleWarnMsg "I2" "W1"] (by decide) rfl

/-- Claim C8: when the merge succeeds (the existing document maps
`source_metadata` to a mapping), only `source_metadata.volume` is set to
the freshly extracted mapping: every other top-level entry, and every
other entry inside `source_metadata`, reads back unchanged. -/
theorem claim_C8 (parsed : Option RGraph) (work_id : String)
    (uids : Nat → String) (entries sm : List (String × Yaml))
    (vi : List (String × VolRecord)) (plog : List String)
    (hparse : parse_volume_info parsed work_id uids = some (vi, plog))
    (hsm : dictGet entries "source_metadata" = some (Yaml.map sm)) :
    get_new_meta (Yaml.map entries) parsed work_id uids =
      some (Yaml.map (dictSet entries "source_metadata"
        (Yaml.map (dictSet sm "volume" (volInfoToYaml vi)))), plog) ∧
    (∀ k, k ≠ "source_metadata" →
      dictGet (dictSet entries "source_metadata"
        (Yaml.map (dictSet sm "volume" (volInfoToYaml vi)))) k =
      dictGet entries k) ∧
    dictGet (dictSet entries "source_metadata"
        (Yaml.map (dictSet sm "volume" (volInfoToYaml vi)))) "source_metadata" =
      some (Yaml.map (dictSet sm "volume" (volInfoToYaml vi))) ∧
    (∀ k, k ≠ "volume" →
      dictGet (dictSet sm "volume" (volInfoToYaml vi)) k = dictGet sm k) ∧
    dictGet (dictSet sm "volume" (volInfoToYaml vi)) "volume" =
      some (volInfoToYaml vi) := by
  refine ⟨?_, fun k hk => dictGet_dictSet_ne entries _ hk,
    dictGet_dictSet_self entries "source_metadata" _,
    fun k hk => dictGet_dictSet_ne sm _ hk,
    dictGet_dictSet_self sm "volume" _⟩
  unfold get_new_meta
  rw [hparse]
  show (match dictGet entries "source_metadata" with
    | some (Yaml.map sm) =>
      some (Yaml.map (dictSet entries "source_metadata"
        (Yaml.map (dictSet sm "volume" (volInfoToYaml vi)))), plog)
    | _ => some (Yaml.map entries, plog ++ [metaWarnMsg work_id])) =
    some (Yaml.map (dictSet entries "source_metadata"
      (Yaml.map (dictSet sm "volume" (volInfoToYaml vi)))), plog)
  rw [hsm]

/-- Witness for C8 at the concrete document `oldMetaEntriesW`. -/
theorem claim_C8_witness :
    get_new_meta (Yaml.map oldMetaEntriesW) (some gW) "W1" (uidsW 'a') =
      some (Yaml.map (dictSet oldMetaEntriesW "source_metadata"
        (Yaml.map (dictSet smW "volume" (volInfoToYaml
          [("a", ⟨"I1", "vol. 1", 1, 50⟩), ("aa", ⟨"I2", "", 2, 0⟩)])))),
        [titleWarnMsg "I2" "W1"]) ∧
    (∀ k, k ≠ "source_metadata" →
      dictGet (dictSet oldMetaEntriesW "source_metadata"
        (Yaml.map (dictSet smW "volume" (volInfoToYaml
          [("a", ⟨"I1", "vol. 1", 1, 50⟩), ("aa", ⟨"I2", "", 2, 0⟩)])))) k =
      dictGet oldMetaEntriesW k) ∧
    dictGet (dictSet oldMetaEntriesW "source_metadata"
        (Yaml.map (dictSet smW "volume" (volInfoToYaml
          [("a", ⟨"I1", "vol. 1", 1, 50⟩), ("aa", ⟨"I2", "", 2, 0⟩)]))))
        "source_metadata" =
      some (Yaml.map (dictSet smW "volume" (volInfoToYaml
        [("a", ⟨"I1", "vol. 1", 1, 50⟩), ("aa", ⟨"I2", "", 2, 0⟩)]))) ∧
    (∀ k, k ≠ "volume" →
      dictGet (dictSet smW "volume" (volInfoToYaml
        [("a", ⟨"I1", "vol. 1", 1, 50⟩), ("aa", ⟨"I2", "", 2, 0⟩)])) k =
      dictGet smW k) ∧
    dictGet (dictSet smW "volume" (volInfoToYaml
        [("a", ⟨"I1", "vol. 1", 1, 50⟩), ("aa", ⟨"I2", "", 2, 0⟩)])) "volume" =
      some (volInfoToYaml
        [("a", ⟨"I1", "vol. 1", 1, 50⟩), ("aa", ⟨"I2", "", 2, 0⟩)]) :=
  claim_C8 (some gW) "W1" (uidsW 'a') oldMetaEntriesW smW
    [("a", ⟨"I1", "vol. 1", 1, 50⟩), ("aa", ⟨"I2", "", 2, 0⟩)]
    [titleWarnMsg "I2" "W1"] (by decide) rfl

/-- Claim C10: the empty graph text (what `get_ttl` returns on fetch
failure) is a valid Turtle document: it parses to the empty graph,
`parse_volume_info` returns the empty mapping with no warning at all,
and the merge then sets `source_metadata.volume` to the empty mapping,
silently overwriting whatever volume value the document held before. -/
theorem claim_C10 (work_id : String) (uids : Nat → String)
    (entries sm : List (String × Yaml)) (v₀ : Yaml)
    (hsm : dictGet entries "source_metadata" = some (Yaml.map sm))
    (hvol : dictGet sm "volume" = some v₀) :
    ttlParse "" = some [] ∧
    parse_volume_info (ttlParse "") work_id uids = some ([], []) ∧
    get_new_meta (Yaml.map entries) (ttlParse "") work_id uids =
      some (Yaml.map (dictSet entries "source_metadata"
        (Yaml.map (dictSet sm "volume" (Yaml.map [])))), []) ∧
    dictGet (dictSet sm "volume" (Yaml.map [])) "volume" =
      some (Yaml.map []) := by
  refine ⟨rfl, rfl, ?_, dictGet_dictSet_self sm "volume" _⟩
  unfold get_new_meta
  show (match dictGet entries "source_metadata" with
    | some (Yaml.map sm) =>
      some (Yaml.map (dictSet entries "source_metadata"
        (Yaml.map (dictSet sm "volume"
          (volInfoToYaml ([] : List (String × VolRecord)))))),
        ([] : List String))
    | _ => some (Yaml.map entries,
        ([] : List String) ++ [metaWarnMsg work_id])) =
    some (Yaml.map (dictSet entries "source_metadata"
      (Yaml.map (dictSet sm "volume" (Yaml.map [])))), [])
  rw [hsm]
  rfl

/-- Witness for C10 at the concrete document `oldMetaEntriesW`, whose
`source_metadata.volume` holds the value `"stale"` before the merge. -/
theorem claim_C10_witness :
    ttlParse "" = some [] ∧
    parse_volume_info (ttlParse "") "W22083" (uidsW 'a') = some ([], []) ∧
    get_new_meta (Yaml.map oldMetaEntriesW) (ttlParse "") "W22083" (uidsW 'a') =
      some (Yaml.map (dictSet oldMetaEntriesW "source_metadata"
        (Yaml.map (dictSet smW "volume" (Yaml.map [])))), []) ∧
    dictGet (dictSet smW "volume" (Yaml.map [])) "volume" =
      some (Yaml.map []) :=
  claim_C10 "W22083" (uidsW 'a') oldMetaEntriesW smW (Yaml.str "stale") rfl rfl
